import Mathlib

/-!
Shallow embedding of the Nim game rules from
src/python/aidoodle/games/nim.py.

Python integers are modelled as Lean `Int`.  The dataclasses `Move` and
`Player` validate their fields in `__post_init__`; here the validated
invariants are carried as proof fields of the structures (every Python
object of those classes satisfies them), and the fallible constructors
are modelled by `mkMove` / `mkPlayer` returning `Option` (`none` models
the raised `ValueError`).  `Player.agent` is a policy object that never
takes part in equality (Python `Player.__eq__` compares only `i`) nor in
any rule function, so it is omitted.  `Game.player_idx` is only ever 0
or 1 in the program (`get_next_player_idx` returns `int(bool)`), so it
is modelled as `Fin 2`, matching Python tuple indexing on those values.
All functions are pure, as in the source: applying a move returns a new
board value and cannot mutate its input.
-/

namespace Aidoodle.Nim

/-- The `Move` dataclass: heap index `i`, amount `j`, with the
`__post_init__` validation (`i in POSSIBLE_HEAPS`, `j >= 1`) carried as
invariants. -/
structure Move where
  i : Int
  j : Int
  hi : i = 0 ∨ i = 1 ∨ i = 2
  hj : 1 ≤ j

instance : DecidableEq Move := fun a b =>
  if h : a.i = b.i ∧ a.j = b.j then
    isTrue (by
      cases a
      cases b
      obtain ⟨h1, h2⟩ := h
      cases h1
      cases h2
      rfl)
  else
    isFalse (fun he => h (by cases he; exact ⟨rfl, rfl⟩))

/-- The constructor `Move(i, j)`: `none` models the `ValueError` raised
by `__post_init__` when `i not in {0, 1, 2}` or `j < 1`. -/
def mkMove (i j : Int) : Option Move :=
  if hi : i = 0 ∨ i = 1 ∨ i = 2 then
    if hj : 1 ≤ j then some ⟨i, j, hi, hj⟩ else none
  else none

/-- The `Player` dataclass: identifier `i` with the `__post_init__`
validation (`i in POSSIBLE_PLAYERS = {-1, 1, 2}`) carried as an
invariant.  The agent field is omitted (it is ignored by `__eq__` and by
every rule function modelled here). -/
structure Player where
  i : Int
  hi : i = -1 ∨ i = 1 ∨ i = 2

instance : DecidableEq Player := fun a b =>
  if h : a.i = b.i then
    isTrue (by
      cases a
      cases b
      cases h
      rfl)
  else
    isFalse (fun he => h (by cases he; rfl))

/-- The constructor `Player(i)`: `none` models the `ValueError` raised
by `__post_init__` when `i not in {-1, 1, 2}`. -/
def mkPlayer (i : Int) : Option Player :=
  if h : i = -1 ∨ i = 1 ∨ i = 2 then some ⟨i, h⟩ else none

/-- `Player(1)`. -/
def player1 : Player := ⟨1, Or.inr (Or.inl rfl)⟩

/-- `Player(2)`. -/
def player2 : Player := ⟨2, Or.inr (Or.inr rfl)⟩

/-- The `Board` dataclass: a triple of heap sizes. -/
structure Board where
  state : Int × Int × Int

instance : DecidableEq Board := fun a b =>
  if h : a.state = b.state then
    isTrue (by cases a; cases b; cases h; rfl)
  else
    isFalse (fun he => h (by cases he; rfl))

/-- Python `board.state[i]` for a heap index `i` in {0, 1, 2}. -/
def Board.get (b : Board) (i : Int) : Int :=
  if i = 0 then b.state.1 else if i = 1 then b.state.2.1 else b.state.2.2

/-- Python `sum(board)`. -/
def boardSum (b : Board) : Int :=
  b.state.1 + b.state.2.1 + b.state.2.2

/-- The `Game` dataclass: two players, a board, and the index of the
player to move.  The index is `Fin 2` because the program only ever
stores 0 or 1 there. -/
structure Game where
  players : Player × Player
  board : Board
  player_idx : Fin 2

instance : DecidableEq Game := fun a b =>
  if h : a.players = b.players ∧ a.board = b.board ∧ a.player_idx = b.player_idx then
    isTrue (by
      cases a
      cases b
      obtain ⟨h1, h2, h3⟩ := h
      cases h1
      cases h2
      cases h3
      rfl)
  else
    isFalse (fun he => h (by cases he; exact ⟨rfl, rfl, rfl⟩))

/-- The `Game.player` property: `self.players[self.player_idx]`. -/
def Game.player (g : Game) : Player :=
  if g.player_idx = (0 : Fin 2) then g.players.1 else g.players.2

/-- `determine_winner`: `None` while `sum(board) != 0`, otherwise the
current player (the last player to have taken a stone loses, so the
player whose turn it would be wins).  The `Game.winner` property
delegates to this function. -/
def determine_winner (g : Game) : Option Player :=
  if boardSum g.board ≠ 0 then none else some g.player

/-- `get_next_player_idx`: `int(game.player == Player(1))`; Python
`Player.__eq__` compares only the identifier `i`. -/
def get_next_player_idx (g : Game) : Fin 2 :=
  if g.player.i = 1 then 1 else 0

/-- The moves contributed by heap `i` of current size `n` in
`_get_all_moves`: `Move(i, j)` for `j` in `range(1, n + 1)` (empty when
`n <= 0`, matching the `continue` on `n == 0` and Python's empty
range). -/
def heapMoves (i : Int) (hi : i = 0 ∨ i = 1 ∨ i = 2) (n : Int) : List Move :=
  (List.range n.toNat).map fun (k : Nat) => ⟨i, (k : Int) + 1, hi, by omega⟩

/-- `_get_all_moves`: all moves over the three heaps, in heap order. -/
def get_all_moves (b : Board) : List Move :=
  heapMoves 0 (Or.inl rfl) b.state.1 ++
    heapMoves 1 (Or.inr (Or.inl rfl)) b.state.2.1 ++
    heapMoves 2 (Or.inr (Or.inr rfl)) b.state.2.2

/-- `get_legal_moves`: empty once the game has a winner (a `Player`
object is always truthy in Python, so `if game.winner:` tests
`isSome`), otherwise all moves of the board. -/
def get_legal_moves (g : Game) : List Move :=
  if (determine_winner g).isSome then [] else get_all_moves g.board

/-- `apply_move`: `none` models the `ValueError('illegal move')` raised
when `state[i_heap] < n_stones`; otherwise a new board with heap `i`
reduced by `j`, the other heaps unchanged (mirroring the three-way
tuple construction in the source). -/
def apply_move (b : Board) (m : Move) : Option Board :=
  if b.get m.i < m.j then none
  else
    some ⟨(if m.i = 0 then b.state.1 - m.j else b.state.1,
           if m.i = 1 then b.state.2.1 - m.j else b.state.2.1,
           if m.i = 2 then b.state.2.2 - m.j else b.state.2.2)⟩

/-- `make_move` with an explicit move (the `move is None` branch asks
the agent and is not modelled): applies the move to the board and
stores `get_next_player_idx` of the pre-move game as the new index. -/
def make_move (g : Game) (m : Move) : Option Game :=
  (apply_move g.board m).map fun b => ⟨g.players, b, get_next_player_idx g⟩

/-- `init_game` with an explicit board (the random-board branch is not
modelled): players are always `(Player(1), Player(2))`. -/
def init_game (b : Board) (idx : Fin 2) : Game :=
  ⟨(player1, player2), b, idx⟩

/-- Termination measure for plays: the total number of stones actually
on the table (each heap clamped at zero; heaps are never made negative
by a legal move, and moves are only generated for positive heaps). -/
def posSum (b : Board) : Nat :=
  b.state.1.toNat + b.state.2.1.toNat + b.state.2.2.toNat

/-- `Move(0, 1)`. -/
def mv01 : Move := ⟨0, 1, Or.inl rfl, by decide⟩

/-- `Move(1, 1)`. -/
def mv11 : Move := ⟨1, 1, Or.inr (Or.inl rfl), by decide⟩

/-- `Move(2, 1)`. -/
def mv21 : Move := ⟨2, 1, Or.inr (Or.inr rfl), by decide⟩

/-- The default board `(3, 4, 5)`. -/
def bW : Board := ⟨(3, 4, 5)⟩

/-- The game of the worked example: board `(1, 1, 1)`, players
`(Player(1), Player(2))`, player 1 to move. -/
def gB0 : Game := init_game ⟨(1, 1, 1)⟩ 0

/-- The example game after `Move(0, 1)`. -/
def gB1 : Game := ⟨(player1, player2), ⟨(0, 1, 1)⟩, 1⟩

/-- The example game after `Move(0, 1)` and `Move(1, 1)`. -/
def gB2 : Game := ⟨(player1, player2), ⟨(0, 0, 1)⟩, 0⟩

/-- The terminal example game, reached from `gB2` by `Move(2, 1)`. -/
def gB3 : Game := ⟨(player1, player2), ⟨(0, 0, 0)⟩, 1⟩

/-- A game between two agents both identified as `Player(2)`, with
`player_idx = 1`. -/
def gX : Game := ⟨(player2, player2), ⟨(1, 1, 1)⟩, 1⟩

/-- `gX` after `Move(0, 1)`. -/
def gX' : Game := ⟨(player2, player2), ⟨(0, 1, 1)⟩, 0⟩

/-- A one-step play sequence of games, for witnessing the termination
bound. -/
def gsW : Nat → Game := fun n => if n = 0 then gB2 else gB3

/-- The moves of the one-step play sequence `gsW`. -/
def msW : Nat → Move := fun _ => mv21

/-- Two moves with equal fields are equal (the invariant fields are
proofs). -/
theorem Move.eq_of_fields (a b : Move) (h1 : a.i = b.i) (h2 : a.j = b.j) : a = b := by
  cases a
  cases b
  cases h1
  cases h2
  rfl

/-- Two players with the same identifier are equal, as for Python
`Player.__eq__`. -/
theorem Player.eq_of_idx (a b : Player) (h : a.i = b.i) : a = b := by
  cases a
  cases b
  cases h
  rfl

theorem player1_ne_player2 : player1 ≠ player2 := by decide

theorem fin2_cases (x : Fin 2) : x = 0 ∨ x = 1 := by revert x; decide

theorem Game.player_eq_fst (g : Game) (h : g.player_idx = 0) :
    g.player = g.players.1 := by
  unfold Game.player
  rw [h, if_pos rfl]

theorem Game.player_eq_snd (g : Game) (h : g.player_idx = 1) :
    g.player = g.players.2 := by
  unfold Game.player
  rw [h, if_neg (by decide)]

theorem next_idx_of_eq_one (g : Game) (h : g.player.i = 1) :
    get_next_player_idx g = 1 := by
  unfold get_next_player_idx
  rw [if_pos h]

theorem next_idx_of_ne_one (g : Game) (h : g.player.i ≠ 1) :
    get_next_player_idx g = 0 := by
  unfold get_next_player_idx
  rw [if_neg h]

/-- Membership characterisation of the moves of a single heap. -/
theorem mem_heapMoves (i : Int) (hi : i = 0 ∨ i = 1 ∨ i = 2) (n : Int)
    (m : Move) :
    m ∈ heapMoves i hi n ↔ m.i = i ∧ 1 ≤ m.j ∧ m.j ≤ n := by
  constructor
  · intro hm
    simp only [heapMoves, List.mem_map, List.mem_range] at hm
    obtain ⟨k, hk, he⟩ := hm
    have hmi : m.i = i := by rw [← he]
    have hmj : m.j = (k : Int) + 1 := by rw [← he]
    exact ⟨hmi, by omega, by omega⟩
  · rintro ⟨h1, h2, h3⟩
    simp only [heapMoves, List.mem_map, List.mem_range]
    refine ⟨(m.j - 1).toNat, by omega, ?_⟩
    apply Move.eq_of_fields
    · exact h1.symm
    · show ((m.j - 1).toNat : Int) + 1 = m.j
      omega

/-- Membership characterisation of `_get_all_moves`. -/
theorem mem_get_all_moves (b : Board) (m : Move) :
    m ∈ get_all_moves b ↔ 1 ≤ m.j ∧ m.j ≤ b.get m.i := by
  unfold get_all_moves
  rw [List.mem_append, List.mem_append, mem_heapMoves, mem_heapMoves,
    mem_heapMoves]
  rcases m.hi with h | h | h <;> simp [Board.get, h]

/-- Inversion of a successful `make_move`. -/
theorem make_move_some (g g' : Game) (m : Move)
    (h : make_move g m = some g') :
    apply_move g.board m = some g'.board ∧ g'.players = g.players ∧
      g'.player_idx = get_next_player_idx g := by
  unfold make_move at h
  cases ha : apply_move g.board m with
  | none =>
    rw [ha] at h
    exact absurd h (by simp)
  | some b =>
    rw [ha] at h
    have hb : (⟨g.players, b, get_next_player_idx g⟩ : Game) = g' :=
      Option.some.inj (by simpa using h)
    subst hb
    exact ⟨rfl, rfl, rfl⟩

/-- Every legal move, applied successfully, strictly decreases the
number of stones on the table. -/
theorem posSum_decrease (g : Game) (m : Move) (b' : Board)
    (hmem : m ∈ get_legal_moves g) (ha : apply_move g.board m = some b') :
    posSum b' < posSum g.board := by
  unfold get_legal_moves at hmem
  by_cases hw : (determine_winner g).isSome
  · rw [if_pos hw] at hmem
    exact absurd hmem (List.not_mem_nil m)
  · rw [if_neg hw, mem_get_all_moves] at hmem
    obtain ⟨h1, h2⟩ := hmem
    unfold apply_move at ha
    rw [if_neg (by omega)] at ha
    have hb : b' = ⟨(if m.i = 0 then g.board.state.1 - m.j else g.board.state.1,
        if m.i = 1 then g.board.state.2.1 - m.j else g.board.state.2.1,
        if m.i = 2 then g.board.state.2.2 - m.j else g.board.state.2.2)⟩ :=
      (Option.some.inj ha).symm
    subst hb
    have hj := m.hj
    rcases m.hi with h | h | h <;>
      simp [posSum, Board.get, h] at h2 ⊢ <;>
      omega

/-- Claim C2: starting from board (1, 1, 1) with players
(Player(1), Player(2)) and player 1 to move, the moves Move(0, 1),
Move(1, 1), Move(2, 1) produce the boards (0, 1, 1), (0, 0, 1),
(0, 0, 0) in that order, and the winner of the final game is
Player(2). -/
theorem c2_example_play :
    gB0.players = (player1, player2) ∧ gB0.player = player1 ∧
    make_move gB0 mv01 = some gB1 ∧ gB1.board.state = (0, 1, 1) ∧
    make_move gB1 mv11 = some gB2 ∧ gB2.board.state = (0, 0, 1) ∧
    make_move gB2 mv21 = some gB3 ∧ gB3.board.state = (0, 0, 0) ∧
    determine_winner gB3 = some player2 := by
  decide

/-- Claim C3: determine_winner (backing the Game.winner property)
returns none exactly when the board is non-terminal (heap sum nonzero),
and returns some player exactly when the board is terminal. -/
theorem c3_winner_none_iff_nonterminal (g : Game) :
    (determine_winner g = none ↔ boardSum g.board ≠ 0) ∧
    ((determine_winner g).isSome ↔ boardSum g.board = 0) := by
  by_cases h : boardSum g.board = 0 <;> simp [determine_winner, h]

/-- Claim C4: for every board and every constructible move Move(i, j)
(so i in {0, 1, 2} and j ≥ 1) with j not exceeding heap i, apply_move
succeeds and returns a board whose heap i is the old value minus j
(hence strictly decreased) while the other heaps are unchanged; the
input board value is unchanged (all functions here are pure, as the
source constructs a new tuple). -/
theorem c4_apply_move_success (b : Board) (m : Move)
    (h : m.j ≤ b.get m.i) :
    ∃ b', apply_move b m = some b' ∧
      b'.get m.i = b.get m.i - m.j ∧
      b'.get m.i < b.get m.i ∧
      ∀ k : Int, (k = 0 ∨ k = 1 ∨ k = 2) → k ≠ m.i → b'.get k = b.get k := by
  have hj := m.hj
  refine ⟨⟨(if m.i = 0 then b.state.1 - m.j else b.state.1,
      if m.i = 1 then b.state.2.1 - m.j else b.state.2.1,
      if m.i = 2 then b.state.2.2 - m.j else b.state.2.2)⟩,
    ?_, ?_, ?_, ?_⟩
  · unfold apply_move
    rw [if_neg (by omega)]
  · rcases m.hi with hm | hm | hm <;> simp [Board.get, hm]
  · rcases m.hi with hm | hm | hm <;> simp [Board.get, hm] at h ⊢ <;> omega
  · intro k hk hkm
    rcases m.hi with hm | hm | hm <;> rcases hk with hk | hk | hk <;>
      simp [Board.get, hm, hk] at hkm ⊢

/-- Claim C4 witness: the default board (3, 4, 5) and Move(0, 1). -/
theorem c4_witness :
    ∃ b', apply_move bW mv01 = some b' ∧
      b'.get mv01.i = bW.get mv01.i - mv01.j ∧
      b'.get mv01.i < bW.get mv01.i ∧
      ∀ k : Int, (k = 0 ∨ k = 1 ∨ k = 2) → k ≠ mv01.i →
        b'.get k = bW.get k :=
  c4_apply_move_success bW mv01 (by decide)

/-- Claim C5: apply_move fails (none models the raised ValueError) if
and only if heap i currently holds fewer than j stones; on failure no
board is produced, and the input board is never mutated (the embedding
is pure, as is the source, which builds a fresh tuple). -/
theorem c5_apply_move_none_iff (b : Board) (m : Move) :
    apply_move b m = none ↔ b.get m.i < m.j := by
  unfold apply_move
  by_cases h : b.get m.i < m.j <;> simp [h]

/-- Claim C6: on a non-terminal board, get_legal_moves contains exactly
the moves Move(i, j) with heap i nonzero and 1 ≤ j ≤ size of heap i. -/
theorem c6_legal_moves_iff (g : Game) (h : boardSum g.board ≠ 0)
    (m : Move) :
    m ∈ get_legal_moves g ↔
      g.board.get m.i ≠ 0 ∧ 1 ≤ m.j ∧ m.j ≤ g.board.get m.i := by
  have hw : determine_winner g = none := by simp [determine_winner, h]
  unfold get_legal_moves
  rw [hw]
  simp only [Option.isSome_none, Bool.false_eq_true, if_false]
  rw [mem_get_all_moves]
  constructor
  · rintro ⟨h1, h2⟩
    exact ⟨by omega, h1, h2⟩
  · rintro ⟨_, h1, h2⟩
    exact ⟨h1, h2⟩

/-- Claim C6 witness: Move(2, 1) on the board (1, 1, 1). -/
theorem c6_witness :
    mv21 ∈ get_legal_moves gB0 ↔
      (gB0.board.get mv21.i ≠ 0 ∧ 1 ≤ mv21.j ∧
        mv21.j ≤ gB0.board.get mv21.i) :=
  c6_legal_moves_iff gB0 (by decide) mv21

/-- Claim C7: on a terminal board (all heaps zero) get_legal_moves
returns the empty list. -/
theorem c7_terminal_no_legal_moves (g : Game)
    (h : g.board.state = (0, 0, 0)) :
    get_legal_moves g = [] := by
  have h0 : boardSum g.board = 0 := by simp [boardSum, h]
  simp [get_legal_moves, determine_winner, h0]

/-- Claim C7 witness: the terminal example game. -/
theorem c7_witness : get_legal_moves gB3 = [] :=
  c7_terminal_no_legal_moves gB3 rfl

/-- Claim C8: play always terminates.  Any sequence of games linked by
legal moves (each taken from get_legal_moves and applied via make_move)
has length at most the number of stones on the initial board, because
every legal move strictly decreases the stone count, which is bounded
below by zero. -/
theorem c8_play_length_bounded (gs : Nat → Game) (ms : Nat → Move)
    (k : Nat)
    (h : ∀ n, n < k → ms n ∈ get_legal_moves (gs n) ∧
      make_move (gs n) (ms n) = some (gs (n + 1))) :
    k ≤ posSum (gs 0).board := by
  have key : ∀ n, n ≤ k → n + posSum (gs n).board ≤ posSum (gs 0).board := by
    intro n
    induction n with
    | zero => intro _; omega
    | succ n ih =>
      intro hn
      obtain ⟨hmem, hmk⟩ := h n (by omega)
      obtain ⟨ha, _, _⟩ := make_move_some _ _ _ hmk
      have hdec := posSum_decrease (gs n) (ms n) (gs (n + 1)).board hmem ha
      have hrec := ih (by omega)
      omega
  have hk := key k (Nat.le_refl k)
  omega

/-- Claim C8 witness: the one-move play from board (0, 0, 1). -/
theorem c8_witness : 1 ≤ posSum (gsW 0).board :=
  c8_play_length_bounded gsW msW 1 (fun n hn => by
    have h0 : n = 0 := by omega
    subst h0
    exact ⟨by decide, by decide⟩)

/-- Claim C9: the Move constructor rejects (raises, modelled by none)
exactly the arguments with i outside {0, 1, 2} or j < 1, and the Player
constructor rejects exactly the identifiers outside {-1, 1, 2};
in-range constructions succeed. -/
theorem c9_constructor_validation (i j : Int) :
    (mkMove i j = none ↔ (¬(i = 0 ∨ i = 1 ∨ i = 2) ∨ j < 1)) ∧
    ((mkMove i j).isSome ↔ ((i = 0 ∨ i = 1 ∨ i = 2) ∧ 1 ≤ j)) ∧
    (mkPlayer i = none ↔ ¬(i = -1 ∨ i = 1 ∨ i = 2)) ∧
    ((mkPlayer i).isSome ↔ (i = -1 ∨ i = 1 ∨ i = 2)) := by
  by_cases h1 : i = 0 ∨ i = 1 ∨ i = 2 <;>
    by_cases h2 : 1 ≤ j <;>
    by_cases h3 : i = -1 ∨ i = 1 ∨ i = 2 <;>
    simp [mkMove, mkPlayer, h1, h2, h3] <;>
    omega

/-- Claim C1 counterexample: in the game with board (0, 0, 1), players
(Player(1), Player(2)) and Player(1) to move, Player(1) makes the final
move Move(2, 1); the resulting board is terminal, yet the winner is
Player(2), not the player who supplied the last move. -/
theorem c1_counterexample :
    gB2.player = player1 ∧
    make_move gB2 mv21 = some gB3 ∧
    gB3.board.state = (0, 0, 0) ∧
    determine_winner gB3 = some player2 ∧
    ¬ determine_winner gB3 = some gB2.player := by
  decide

/-- Claim C1 (amended): after make_move produces a terminal board (all
three heaps zero), the winner of the resulting game is that game's
current player, which — for the standard players (Player(1),
Player(2)) — is the opponent of the player who supplied the last move,
never the mover (misère rule: last to move loses). -/
theorem c1_winner_is_opponent_of_last_mover (g g' : Game) (m : Move)
    (hp : g.players = (player1, player2))
    (hm : make_move g m = some g')
    (ht : g'.board.state = (0, 0, 0)) :
    determine_winner g' = some g'.player ∧
    g'.player ≠ g.player ∧
    (g.player = player1 → g'.player = player2) ∧
    (g.player = player2 → g'.player = player1) := by
  obtain ⟨ha, hps, hidx⟩ := make_move_some g g' m hm
  have h0 : boardSum g'.board = 0 := by simp [boardSum, ht]
  have hwin : determine_winner g' = some g'.player := by
    simp [determine_winner, h0]
  rcases fin2_cases g.player_idx with hx | hx
  · have hgp : g.player = player1 := by
      rw [Game.player_eq_fst g hx, hp]
    have hn : get_next_player_idx g = 1 :=
      next_idx_of_eq_one g (by rw [hgp]; rfl)
    have hg'p : g'.player = player2 := by
      rw [Game.player_eq_snd g' (by rw [hidx, hn]), hps, hp]
    refine ⟨hwin, ?_, fun _ => hg'p, ?_⟩
    · rw [hg'p, hgp]
      exact fun he => player1_ne_player2 he.symm
    · intro hcontra
      rw [hgp] at hcontra
      exact absurd hcontra player1_ne_player2
  · have hgp : g.player = player2 := by
      rw [Game.player_eq_snd g hx, hp]
    have hn : get_next_player_idx g = 0 :=
      next_idx_of_ne_one g (by rw [hgp]; decide)
    have hg'p : g'.player = player1 := by
      rw [Game.player_eq_fst g' (by rw [hidx, hn]), hps, hp]
    refine ⟨hwin, ?_, ?_, fun _ => hg'p⟩
    · rw [hg'p, hgp]
      exact player1_ne_player2
    · intro hcontra
      rw [hgp] at hcontra
      exact absurd hcontra.symm player1_ne_player2

/-- Claim C1 witness: the final move of the worked example. -/
theorem c1_witness :
    determine_winner gB3 = some gB3.player ∧
    gB3.player ≠ gB2.player ∧
    (gB2.player = player1 → gB3.player = player2) ∧
    (gB2.player = player2 → gB3.player = player1) :=
  c1_winner_is_opponent_of_last_mover gB2 gB3 mv21 rfl (by decide) rfl

/-- Claim C10 counterexample: in a game whose two players are both
Player(2) and whose player_idx is 1, a legal move changes player_idx
(to 0), so the index is not preserved by every move in such games. -/
theorem c10_counterexample :
    gX.players.1.i ≠ 1 ∧ gX.players.2.i ≠ 1 ∧
    make_move gX mv01 = some gX' ∧
    gX'.player_idx ≠ gX.player_idx := by
  decide

/-- Claim C10 (amended): get_next_player_idx returns 1 exactly when the
current player equals Player(1) and 0 otherwise; hence for a game with
players (Player(1), Player(2)) every make_move flips player_idx, while
for a game in which neither player is Player(1) every make_move sets
player_idx to 0 (so the index, once 0, never changes, though an initial
index of 1 changes to 0 on the first move). -/
theorem c10_next_player_idx_spec (g g' : Game) (m : Move)
    (hm : make_move g m = some g') :
    (get_next_player_idx g = if g.player = player1 then 1 else 0) ∧
    (g.players = (player1, player2) → g'.player_idx ≠ g.player_idx) ∧
    (g.players.1.i ≠ 1 → g.players.2.i ≠ 1 → g'.player_idx = 0) := by
  obtain ⟨ha, hps, hidx⟩ := make_move_some g g' m hm
  refine ⟨?_, ?_, ?_⟩
  · by_cases hc : g.player.i = 1
    · rw [next_idx_of_eq_one g hc,
        if_pos (Player.eq_of_idx g.player player1 hc)]
    · rw [next_idx_of_ne_one g hc,
        if_neg (fun he => hc (by rw [he]; rfl))]
  · intro hp
    rcases fin2_cases g.player_idx with hx | hx
    · have hgp : g.player = player1 := by
        rw [Game.player_eq_fst g hx, hp]
      rw [hidx, next_idx_of_eq_one g (by rw [hgp]; rfl), hx]
      decide
    · have hgp : g.player = player2 := by
        rw [Game.player_eq_snd g hx, hp]
      rw [hidx, next_idx_of_ne_one g (by rw [hgp]; decide), hx]
      decide
  · intro h1 h2
    rw [hidx]
    apply next_idx_of_ne_one
    rcases fin2_cases g.player_idx with hx | hx
    · rw [Game.player_eq_fst g hx]
      exact h1
    · rw [Game.player_eq_snd g hx]
      exact h2

/-- Claim C10 witness: the final move of the worked example, in a game
with players (Player(1), Player(2)). -/
theorem c10_witness :
    (get_next_player_idx gB2 = if gB2.player = player1 then 1 else 0) ∧
    (gB2.players = (player1, player2) → gB3.player_idx ≠ gB2.player_idx) ∧
    (gB2.players.1.i ≠ 1 → gB2.players.2.i ≠ 1 → gB3.player_idx = 0) :=
  c10_next_player_idx_spec gB2 gB3 mv21 (by decide)

end Aidoodle.Nim
